import Mathlib

/-!
# Verification of the free-text feedback extractor

Shallow embedding of the extraction methods of `AIHRAnalyzer`
(`apps/wpr/ai_analyzer.py`): `_extract_metrics`, `_extract_recommendations`
and `_extract_wellness_value`, together with proofs of the specified
properties.

Modelling conventions:
* Text is `List Char`; Python `str.strip`, `str.lower`, `str.split('\n')`,
  `str.split()` and the `in` substring test are translated directly.
* The two `re.search` patterns the source uses,
  `kw[^0-9]*([0-4](?:\.\d)?)` and `kw[^0-9]*(\d{1,3})%` under `re.I`,
  are specialised: since `[^0-9]*` can only cross non-digits, the capture
  group necessarily begins at the first digit after an occurrence of the
  keyword, and `re.search` takes the leftmost keyword occurrence at which
  the remainder of the pattern succeeds.  The digit classes `[0-9]` and
  `\d` are modelled over the ASCII digits, and `re.I` by searching the
  ASCII-lowercased text for the lowercase keyword.
* The Python floats produced by `float("d")` / `float("d.e")` are modelled
  exactly as the rationals `d` and `d + e/10`.
* The extractors are called on the text of a model response; a caller may
  nevertheless pass a non-string value, on which the first string/regex
  operation inside the `try` block raises `TypeError`.  Inputs are
  therefore `PyVal` (a string or a non-string) and the `try` bodies are
  `Except`-valued, with the `except` clauses materialised as a `match`.
-/

namespace WPR

/-- A Python string, as a list of characters. -/
abbrev PyStr := List Char

/-- The whitespace characters recognised by Python `str.strip()` /
`str.split()` (the ASCII ones: space, tab, newline, carriage return,
vertical tab, form feed). -/
def isPySpace (c : Char) : Bool :=
  c = ' ' || c = '\t' || c = '\n' || c = '\r' || c.toNat = 11 || c.toNat = 12

/-- Python `str.strip()`: drop leading and trailing whitespace. -/
def stripPy (s : PyStr) : PyStr :=
  ((s.dropWhile isPySpace).reverse.dropWhile isPySpace).reverse

/-- Python `str.lower()` (ASCII case mapping), as used both by `.lower()`
calls and by `re.I` matching of the all-lowercase keyword literals. -/
def lowerStr (s : PyStr) : PyStr := s.map Char.toLower

/-- Python `needle in haystack` substring containment. -/
def containsSub (needle : PyStr) : PyStr → Bool
  | [] => needle.isEmpty
  | c :: t => needle.isPrefixOf (c :: t) || containsSub needle t

/-- Python `str.split('\n')`. -/
def splitNl : PyStr → List PyStr
  | [] => [[]]
  | c :: t =>
    if c = '\n' then [] :: splitNl t
    else
      match splitNl t with
      | [] => [[c]]
      | l :: ls => (c :: l) :: ls

/-- Accumulator loop for Python `str.split()` (whitespace-run splitting
that produces no empty tokens); `cur` holds the current token reversed. -/
def splitWsAux : PyStr → PyStr → List PyStr
  | [], cur => if cur.isEmpty then [] else [cur.reverse]
  | c :: t, cur =>
    if isPySpace c then
      (if cur.isEmpty then [] else [cur.reverse]) ++ splitWsAux t []
    else splitWsAux t (c :: cur)

/-- Python `str.split()` with no separator argument. -/
def splitWs (s : PyStr) : List PyStr := splitWsAux s []

/-- The numeric value of an ASCII digit character. -/
def digitVal (c : Char) : ℕ := c.toNat - '0'.toNat

/-- The greedy optional group `(?:\.\d)?`: it extends the capture by a
literal dot and one further digit exactly when both are present. -/
def fracAfter (rest2 : PyStr) : Option ℕ :=
  match rest2 with
  | '.' :: e :: _ => if e.isDigit then some (digitVal e) else none
  | _ => none

/-- Tail of the pattern `[^0-9]*([0-4](?:\.\d)?)` after the keyword:
`[^0-9]*` can only extend to the first ASCII digit, so the group matches
iff that digit is in `[0-4]`; the greedy optional part then captures one
decimal digit after a literal dot when present.  Returns the captured
digits `(whole, optional tenth)`, or `none` when this position fails. -/
def scoreAfter (rest : PyStr) : Option (ℕ × Option ℕ) :=
  match rest.dropWhile (fun c => !c.isDigit) with
  | [] => none
  | d :: rest2 =>
    if ('0' ≤ d && d ≤ '4') then some (digitVal d, fracAfter rest2)
    else none

/-- The Python `float` of the captured score group: `"d"` is `d` and
`"d.e"` is `d + e/10`, modelled exactly as rationals. -/
def scoreVal : ℕ × Option ℕ → ℚ
  | (d, none) => (d : ℚ)
  | (d, some e) => (d : ℚ) + (e : ℚ) / 10

/-- `\d{1,3}%` taking three digits (the greedy engine's first try):
`d1` is the first digit, two further digits and a literal `%` must
follow. -/
def pct3 (d1 : Char) (rest1 : PyStr) : Option ℕ :=
  match rest1 with
  | d2 :: d3 :: c :: _ =>
    if d2.isDigit && d3.isDigit && c = '%' then
      some (100 * digitVal d1 + 10 * digitVal d2 + digitVal d3)
    else none
  | _ => none

/-- `\d{1,3}%` taking two digits (the engine's second try after
backtracking). -/
def pct2 (d1 : Char) (rest1 : PyStr) : Option ℕ :=
  match rest1 with
  | d2 :: c :: _ =>
    if d2.isDigit && c = '%' then some (10 * digitVal d1 + digitVal d2)
    else none
  | _ => none

/-- `\d{1,3}%` taking one digit (the engine's last try). -/
def pct1 (d1 : Char) (rest1 : PyStr) : Option ℕ :=
  match rest1 with
  | c :: _ => if c = '%' then some (digitVal d1) else none
  | _ => none

/-- Tail of the pattern `[^0-9]*(\d{1,3})%` after the keyword: `[^0-9]*`
stops at the first ASCII digit, and the greedy `\d{1,3}` backtracks, so
three digits followed by `%` are tried first, then two, then one.
Returns `int` of the captured digits, or `none` when this position
fails. -/
def percentAfter (rest : PyStr) : Option ℕ :=
  match rest.dropWhile (fun c => !c.isDigit) with
  | [] => none
  | d1 :: rest1 =>
    if d1.isDigit then pct3 d1 rest1 <|> pct2 d1 rest1 <|> pct1 d1 rest1
    else none

/-- `re.search` for a keyword-anchored pattern: try every start position
from the left; at a position the pattern matches iff the (nonempty,
lowercase) keyword literal is a prefix there and the tail pattern `after`
succeeds on the remainder.  The leftmost successful position wins. -/
def searchFrom {α : Type} (after : PyStr → Option α) (kw : PyStr) : PyStr → Option α
  | [] => none
  | c :: t =>
    match (if kw.isPrefixOf (c :: t) then after (List.drop kw.length (c :: t)) else none) with
    | some v => some v
    | none => searchFrom after kw t

/-- All successful matches of the keyword-anchored pattern, leftmost
first (used to state the first-match-wins property). -/
def matchesFrom {α : Type} (after : PyStr → Option α) (kw : PyStr) : PyStr → List α
  | [] => []
  | c :: t =>
    (match (if kw.isPrefixOf (c :: t) then after (List.drop kw.length (c :: t)) else none) with
     | some v => [v]
     | none => []) ++ matchesFrom after kw t

/-- The record built by `_extract_metrics`.  `productivity_score` and
`collaboration_score` come from `float(...)` and are modelled as exact
rationals; the two percentages come from `int(...)` of 1–3 digits. -/
@[ext] structure MetricSet where
  productivity_score : ℚ
  task_completion_rate : ℕ
  project_progress : ℕ
  collaboration_score : ℚ
deriving Repr, DecidableEq

/-- The initial / fallback value of the metrics record. -/
def defaultMetrics : MetricSet :=
  { productivity_score := 0
    task_completion_rate := 0
    project_progress := 0
    collaboration_score := 0 }

def kwProductivity : PyStr := "productivity".toList
def kwTaskCompletion : PyStr := "task completion".toList
def kwProjectProgress : PyStr := "project progress".toList
def kwCollaboration : PyStr := "collaboration".toList

/-- The `try` body of `_extract_metrics` on a string argument: four
independent case-insensitive `re.search` calls over the full text, each
overwriting its zero default only on a match. -/
def extractMetricsStr (t : PyStr) : MetricSet :=
  let lt := lowerStr t
  { productivity_score :=
      match searchFrom scoreAfter kwProductivity lt with
      | some g => scoreVal g
      | none => 0
    task_completion_rate := (searchFrom percentAfter kwTaskCompletion lt).getD 0
    project_progress := (searchFrom percentAfter kwProjectProgress lt).getD 0
    collaboration_score :=
      match searchFrom scoreAfter kwCollaboration lt with
      | some g => scoreVal g
      | none => 0 }

/-- A Python value handed to an extractor: an actual string, or a
non-string value on which the first string/regex operation raises
`TypeError`. -/
inductive PyVal where
  | str (s : PyStr)
  | nonStr
deriving Repr, DecidableEq

/-- The one exception class the embedding needs. -/
inductive PyErr where
  | typeError
deriving Repr, DecidableEq

/-- The `try` block of `_extract_metrics`: on a string input none of the
operations in the block can raise; on a non-string input the first
`re.search` raises `TypeError`. -/
def extractMetricsCore : PyVal → Except PyErr MetricSet
  | .str s => .ok (extractMetricsStr s)
  | .nonStr => .error .typeError

/-- `AIHRAnalyzer._extract_metrics`: the `except` clause catches every
exception and returns the all-defaults record. -/
def extract_metrics (v : PyVal) : MetricSet :=
  match extractMetricsCore v with
  | .ok m => m
  | .error _ => defaultMetrics

/-- The `wellness_indicators` sub-record of the recommendations. -/
@[ext] structure WellnessIndicators where
  work_life_balance : PyStr
  workload_assessment : PyStr
  engagement_level : PyStr
deriving Repr, DecidableEq

/-- The record built by `_extract_recommendations`.  The
`growth_recommendations` dict is never written, so it is an always-empty
association list. -/
@[ext] structure RecommendationSet where
  immediate_actions : List PyStr
  growth_recommendations : List (PyStr × PyStr)
  wellness_indicators : WellnessIndicators
deriving Repr, DecidableEq

/-- The literal `'N/A'`. -/
def nA : PyStr := "N/A".toList

/-- The dictionary `_extract_recommendations` initialises (and the value
its `except` clause returns). -/
def defaultRecommendationSet : RecommendationSet :=
  { immediate_actions := []
    growth_recommendations := []
    wellness_indicators :=
      { work_life_balance := nA
        workload_assessment := nA
        engagement_level := nA } }

/-- The `current_section` variable: `''`, `'actions'` or `'wellness'`. -/
inductive Sect where
  | blank
  | actions
  | wellness
deriving Repr, DecidableEq

/-- The loop state of the line scan in `_extract_recommendations`. -/
structure ScanState where
  current_section : Sect
  recs : RecommendationSet
deriving Repr, DecidableEq

/-- `AIHRAnalyzer._extract_wellness_value`: remove every `•`, `:` and
`-`, strip, split on whitespace, and take the last token, `'N/A'` when
there is none (its `try` body cannot raise on a string). -/
def extract_wellness_value (line : PyStr) : PyStr :=
  let parts := splitWs (stripPy (line.filter (fun c => !(c = '•' || c = ':' || c = '-'))))
  match parts.getLast? with
  | some p => p
  | none => nA

/-- One iteration of the `for line in sections` loop of
`_extract_recommendations`: strip the line, skip it when empty, switch
sections on the header lines, and otherwise dispatch on the current
section — in `actions` a `•`-line appends its stripped remainder, in
`wellness` the first matching marker phrase (work-life balance, then
workload, then engagement) stores the extracted value. -/
def isActionsHeader (line : PyStr) : Bool :=
  ("action plan".toList).isPrefixOf (lowerStr line)
    || ("recommendations".toList).isPrefixOf (lowerStr line)

def isWellnessHeader (line : PyStr) : Bool :=
  ("wellness".toList).isPrefixOf (lowerStr line)
    || ("well-being".toList).isPrefixOf (lowerStr line)

def stepLine (st : ScanState) (rawLine : PyStr) : ScanState :=
  let line := stripPy rawLine
  if line.isEmpty then st
  else if isActionsHeader line then
    { st with current_section := .actions }
  else if isWellnessHeader line then
    { st with current_section := .wellness }
  else if st.current_section = Sect.actions ∧ ("•".toList).isPrefixOf line then
    { st with recs.immediate_actions :=
        st.recs.immediate_actions ++ [stripPy (line.drop 1)] }
  else if st.current_section = Sect.wellness then
    if containsSub ("work-life balance".toList) (lowerStr line) then
      { st with recs.wellness_indicators.work_life_balance := extract_wellness_value line }
    else if containsSub ("workload".toList) (lowerStr line) then
      { st with recs.wellness_indicators.workload_assessment := extract_wellness_value line }
    else if containsSub ("engagement".toList) (lowerStr line) then
      { st with recs.wellness_indicators.engagement_level := extract_wellness_value line }
    else st
  else st

/-- The fixed fallback triple for `immediate_actions`. -/
def fallbackActions : List PyStr :=
  ["Focus on task prioritization".toList,
   "Maintain regular communication with team".toList,
   "Document progress consistently".toList]

/-- The scan loop of `_extract_recommendations` over the `'\n'`-split
lines, from the empty section and the default record. -/
def scanRecs (t : PyStr) : RecommendationSet :=
  ((splitNl t).foldl stepLine
    { current_section := .blank, recs := defaultRecommendationSet }).recs

/-- The `try` body of `_extract_recommendations` on a string argument:
run the scan, then backfill a still-empty `immediate_actions` with the
fallback triple. -/
def extractRecsStr (t : PyStr) : RecommendationSet :=
  let r := scanRecs t
  if r.immediate_actions.isEmpty then { r with immediate_actions := fallbackActions }
  else r

/-- The `try` block of `_extract_recommendations`: on a string input the
scan cannot raise; on a non-string input `analysis_text.split('\n')`
raises. -/
def extractRecsCore : PyVal → Except PyErr RecommendationSet
  | .str s => .ok (extractRecsStr s)
  | .nonStr => .error .typeError

/-- `AIHRAnalyzer._extract_recommendations`: the `except` clause catches
every exception and returns a fresh default record (without the
fallback backfill). -/
def extract_recommendations (v : PyVal) : RecommendationSet :=
  match extractRecsCore v with
  | .ok r => r
  | .error _ => defaultRecommendationSet

/-! ## Helper lemmas -/

theorem digitVal_le_nine {c : Char} (h : c.isDigit = true) : digitVal c ≤ 9 := by
  simp [Char.isDigit] at h
  have h2 : c.toNat ≤ '9'.toNat := h.2
  have e9 : '9'.toNat = 57 := by decide
  have e0 : '0'.toNat = 48 := by decide
  unfold digitVal
  omega

theorem digitVal_le_four {c : Char} (h : ('0' ≤ c && c ≤ '4') = true) : digitVal c ≤ 4 := by
  simp at h
  have h2 : c.toNat ≤ '4'.toNat := h.2
  have e4 : '4'.toNat = 52 := by decide
  have e0 : '0'.toNat = 48 := by decide
  unfold digitVal
  omega

theorem fracAfter_bound {r : PyStr} {x : ℕ} (h : fracAfter r = some x) : x ≤ 9 := by
  unfold fracAfter at h
  split at h
  · rename_i e tail
    split at h
    · rename_i he
      injection h with h
      exact h ▸ digitVal_le_nine he
    · cases h
  · cases h

theorem scoreVal_bound {d : ℕ} {e : Option ℕ} (hd : d ≤ 4)
    (he : ∀ x, e = some x → x ≤ 9) :
    0 ≤ scoreVal (d, e) ∧ scoreVal (d, e) ≤ 49/10 := by
  cases e with
  | none =>
    simp only [scoreVal]
    have hd' : (d : ℚ) ≤ 4 := by exact_mod_cast hd
    exact ⟨Nat.cast_nonneg d, by linarith⟩
  | some x =>
    simp only [scoreVal]
    have hd' : (d : ℚ) ≤ 4 := by exact_mod_cast hd
    have hx' : (x : ℚ) ≤ 9 := by exact_mod_cast he x rfl
    have h0d : (0:ℚ) ≤ (d : ℚ) := Nat.cast_nonneg d
    have h0x : (0:ℚ) ≤ (x : ℚ) := Nat.cast_nonneg x
    exact ⟨by linarith, by linarith⟩

/-- Any group captured by the score tail pattern denotes a rational in
`[0, 4.9]`. -/
theorem scoreAfter_bound {rest : PyStr} {g : ℕ × Option ℕ}
    (h : scoreAfter rest = some g) : 0 ≤ scoreVal g ∧ scoreVal g ≤ 49/10 := by
  unfold scoreAfter at h
  split at h
  · cases h
  · rename_i d rest2
    split at h
    · rename_i hd
      injection h with h
      subst h
      exact scoreVal_bound (digitVal_le_four hd) (fun x hx => fracAfter_bound hx)
    · cases h

theorem pct3_bound {d1 : Char} {r : PyStr} {n : ℕ} (hd1 : d1.isDigit = true)
    (h : pct3 d1 r = some n) : n ≤ 999 := by
  unfold pct3 at h
  split at h
  · rename_i d2 d3 c tail
    split at h
    · rename_i hc
      simp only [Bool.and_eq_true] at hc
      have h1 := digitVal_le_nine hd1
      have h2 := digitVal_le_nine hc.1.1
      have h3 := digitVal_le_nine hc.1.2
      injection h with h
      omega
    · cases h
  · cases h

theorem pct2_bound {d1 : Char} {r : PyStr} {n : ℕ} (hd1 : d1.isDigit = true)
    (h : pct2 d1 r = some n) : n ≤ 999 := by
  unfold pct2 at h
  split at h
  · rename_i d2 c tail
    split at h
    · rename_i hc
      simp only [Bool.and_eq_true] at hc
      have h1 := digitVal_le_nine hd1
      have h2 := digitVal_le_nine hc.1
      injection h with h
      omega
    · cases h
  · cases h

theorem pct1_bound {d1 : Char} {r : PyStr} {n : ℕ} (hd1 : d1.isDigit = true)
    (h : pct1 d1 r = some n) : n ≤ 999 := by
  unfold pct1 at h
  split at h
  · rename_i c tail
    split at h
    · have h1 := digitVal_le_nine hd1
      injection h with h
      omega
    · cases h
  · cases h

/-- Any number captured by the percentage tail pattern is at most 999. -/
theorem percentAfter_bound {rest : PyStr} {n : ℕ}
    (h : percentAfter rest = some n) : n ≤ 999 := by
  unfold percentAfter at h
  split at h
  · cases h
  · rename_i d1 rest1 heq
    split at h
    · rename_i hd1
      rcases h3 : pct3 d1 rest1 with _ | m3
      · rw [h3, Option.none_orElse] at h
        rcases h2 : pct2 d1 rest1 with _ | m2
        · rw [h2, Option.none_orElse] at h
          exact pct1_bound hd1 h
        · rw [h2, Option.some_orElse] at h
          injection h with h
          subst h
          exact pct2_bound hd1 h2
      · rw [h3, Option.some_orElse] at h
        injection h with h
        subst h
        exact pct3_bound hd1 h3
    · cases h

/-- Every value returned by `searchFrom` was produced by the tail
pattern, so any property of the tail pattern's outputs holds of it. -/
theorem searchFrom_some {α : Type} {P : α → Prop} {after : PyStr → Option α} {kw : PyStr}
    (hafter : ∀ r v, after r = some v → P v) :
    ∀ {t : PyStr} {v : α}, searchFrom after kw t = some v → P v := by
  intro t
  induction t with
  | nil => intro v h; simp [searchFrom] at h
  | cons c t ih =>
    intro v h
    unfold searchFrom at h
    split at h
    next w hw =>
      injection h with h
      subst h
      by_cases hp : kw.isPrefixOf (c :: t) = true
      · rw [if_pos hp] at hw
        exact hafter _ _ hw
      · rw [if_neg hp] at hw
        cases hw
    next => exact ih h

/-- `re.search` returns the head of the leftmost-first list of all
matches. -/
theorem searchFrom_eq_head {α : Type} (after : PyStr → Option α) (kw : PyStr) :
    ∀ t : PyStr, searchFrom after kw t = (matchesFrom after kw t).head? := by
  intro t
  induction t with
  | nil => simp [searchFrom, matchesFrom]
  | cons c t ih =>
    unfold searchFrom matchesFrom
    rcases ho : (if kw.isPrefixOf (c :: t) then after (List.drop kw.length (c :: t)) else none) with _ | v
    · simpa using ih
    · simp

/-- When the keyword does not occur in the text, `re.search` fails. -/
theorem searchFrom_eq_none_of_not_contains {α : Type} (after : PyStr → Option α)
    (kw : PyStr) :
    ∀ t : PyStr, containsSub kw t = false → searchFrom after kw t = none := by
  intro t
  induction t with
  | nil => intro _; simp [searchFrom]
  | cons c t ih =>
    intro h
    unfold containsSub at h
    simp only [Bool.or_eq_false_iff] at h
    unfold searchFrom
    rw [if_neg (by simp [h.1])]
    exact ih h.2

theorem extractMetricsStr_productivity (t : PyStr) :
    (extractMetricsStr t).productivity_score =
      match searchFrom scoreAfter kwProductivity (lowerStr t) with
      | some g => scoreVal g
      | none => 0 := rfl

theorem extractMetricsStr_collaboration (t : PyStr) :
    (extractMetricsStr t).collaboration_score =
      match searchFrom scoreAfter kwCollaboration (lowerStr t) with
      | some g => scoreVal g
      | none => 0 := rfl

theorem extractMetricsStr_taskCompletion (t : PyStr) :
    (extractMetricsStr t).task_completion_rate =
      (searchFrom percentAfter kwTaskCompletion (lowerStr t)).getD 0 := rfl

theorem extractMetricsStr_projectProgress (t : PyStr) :
    (extractMetricsStr t).project_progress =
      (searchFrom percentAfter kwProjectProgress (lowerStr t)).getD 0 := rfl

/-- The defaulted score field is bounded whenever the search's outputs
are. -/
theorem scoreField_bound (r : Option (ℕ × Option ℕ))
    (hr : ∀ g, r = some g → 0 ≤ scoreVal g ∧ scoreVal g ≤ 49/10) :
    0 ≤ (match r with | some g => scoreVal g | none => (0:ℚ)) ∧
    (match r with | some g => scoreVal g | none => (0:ℚ)) ≤ 49/10 := by
  cases r with
  | none => norm_num
  | some g => exact hr g rfl

/-- The defaulted percentage field is bounded whenever the search's
outputs are. -/
theorem pctField_bound (r : Option ℕ) (hr : ∀ n, r = some n → n ≤ 999) :
    r.getD 0 ≤ 999 := by
  cases r with
  | none => simp
  | some n => exact hr n rfl

/-! ## Claims -/

/-- C1: `_extract_metrics` is total — on any internal exception (the
error case of the `try` body) it returns exactly the all-defaults
`MetricSet` rather than propagating the exception. -/
theorem c1_metrics_default_on_exception (v : PyVal) (e : PyErr)
    (h : extractMetricsCore v = .error e) : extract_metrics v = defaultMetrics := by
  unfold extract_metrics
  rw [h]

theorem c1_metrics_default_on_exception_witness :
    extractMetricsCore PyVal.nonStr = Except.error PyErr.typeError ∧
    extract_metrics PyVal.nonStr = defaultMetrics :=
  ⟨rfl, c1_metrics_default_on_exception PyVal.nonStr PyErr.typeError rfl⟩

/-- C3: when the scan of `_extract_recommendations` raises, the caught
exception yields the default `RecommendationSet`: `immediate_actions`
is the empty list (the fallback triple is not applied on this path),
`growth_recommendations` is the empty mapping and all three wellness
indicators are `'N/A'`. -/
theorem c3_recs_default_on_exception (v : PyVal) (e : PyErr)
    (h : extractRecsCore v = .error e) :
    extract_recommendations v = defaultRecommendationSet ∧
    (extract_recommendations v).immediate_actions = [] ∧
    (extract_recommendations v).growth_recommendations = [] ∧
    (extract_recommendations v).wellness_indicators =
      { work_life_balance := nA, workload_assessment := nA, engagement_level := nA } := by
  unfold extract_recommendations
  rw [h]
  exact ⟨rfl, rfl, rfl, rfl⟩

theorem c3_recs_default_on_exception_witness :
    extractRecsCore PyVal.nonStr = Except.error PyErr.typeError ∧
    extract_recommendations PyVal.nonStr = defaultRecommendationSet :=
  ⟨rfl, (c3_recs_default_on_exception PyVal.nonStr PyErr.typeError rfl).1⟩

/-- C2: whenever the line scan of `_extract_recommendations` captured no
action-item bullets, `immediate_actions` is the fixed fallback triple;
and on a text input the extractor never returns an empty
`immediate_actions` list. -/
theorem c2_fallback_triple (s : PyStr) :
    ((scanRecs s).immediate_actions = [] →
      (extract_recommendations (.str s)).immediate_actions = fallbackActions) ∧
    (extract_recommendations (.str s)).immediate_actions ≠ [] := by
  constructor
  · intro h
    simp [extract_recommendations, extractRecsCore, extractRecsStr, h]
  · by_cases h : (scanRecs s).immediate_actions = []
    · simp [extract_recommendations, extractRecsCore, extractRecsStr, h, fallbackActions]
    · simp [extract_recommendations, extractRecsCore, extractRecsStr, h]

theorem c2_fallback_triple_witness :
    (scanRecs ("".toList)).immediate_actions = [] ∧
    (extract_recommendations (.str ("".toList))).immediate_actions = fallbackActions :=
  ⟨by decide, (c2_fallback_triple ("".toList)).1 (by decide)⟩

/-- C4 (counterexample): on `"productivity 4.9 task completion 999%"`
the extracted `productivity_score` is 4.9, outside the claimed [0.0,
4.0], and the extracted `task_completion_rate` is 999, outside the
claimed [0, 100]: the pattern shapes permit `4.9` and any 1–3 digit
percentage. -/
theorem c4_ranges_counterexample :
    ¬ ((extract_metrics (.str ("productivity 4.9 task completion 999%".toList))).productivity_score ≤ 4) ∧
    ¬ ((extract_metrics (.str ("productivity 4.9 task completion 999%".toList))).task_completion_rate ≤ 100) := by
  constructor
  · have h : searchFrom scoreAfter kwProductivity
        (lowerStr ("productivity 4.9 task completion 999%".toList)) = some (4, some 9) := by
      decide
    simp only [extract_metrics, extractMetricsCore, extractMetricsStr]
    rw [h]
    norm_num [scoreVal]
  · have h : (extract_metrics (.str ("productivity 4.9 task completion 999%".toList))).task_completion_rate = 999 := by
      decide
    rw [h]
    omega

/-- C4 (amended): for every input, the metrics lie in the ranges the
pattern shapes actually permit: `productivity_score` and
`collaboration_score` are rationals in [0, 4.9] and
`task_completion_rate` and `project_progress` are integers in [0, 999]
(the claimed upper bounds 4.0 and 100 hold neither, since the shapes
admit `4.9` and three-digit percentages). -/
theorem c4_amended_metric_ranges (v : PyVal) :
    0 ≤ (extract_metrics v).productivity_score ∧
    (extract_metrics v).productivity_score ≤ 49/10 ∧
    (extract_metrics v).task_completion_rate ≤ 999 ∧
    (extract_metrics v).project_progress ≤ 999 ∧
    0 ≤ (extract_metrics v).collaboration_score ∧
    (extract_metrics v).collaboration_score ≤ 49/10 := by
  cases v with
  | nonStr =>
    simp only [extract_metrics, extractMetricsCore, defaultMetrics]
    norm_num
  | str s =>
    have hm : extract_metrics (.str s) = extractMetricsStr s := rfl
    rw [hm, extractMetricsStr_productivity, extractMetricsStr_collaboration,
        extractMetricsStr_taskCompletion, extractMetricsStr_projectProgress]
    have hprod := scoreField_bound (searchFrom scoreAfter kwProductivity (lowerStr s))
      (fun g hg => searchFrom_some (fun r v h => scoreAfter_bound h) hg)
    have hcollab := scoreField_bound (searchFrom scoreAfter kwCollaboration (lowerStr s))
      (fun g hg => searchFrom_some (fun r v h => scoreAfter_bound h) hg)
    have htask := pctField_bound (searchFrom percentAfter kwTaskCompletion (lowerStr s))
      (fun n hn => searchFrom_some (fun r v h => percentAfter_bound h) hn)
    have hproj := pctField_bound (searchFrom percentAfter kwProjectProgress (lowerStr s))
      (fun n hn => searchFrom_some (fun r v h => percentAfter_bound h) hn)
    exact ⟨hprod.1, hprod.2, htask, hproj, hcollab.1, hcollab.2⟩

/-- C5: `re.search` uses the leftmost match — the search over any text
equals the head of the leftmost-first list of all keyword-anchored
matches — and on `"productivity 2 ... productivity 4"` the extracted
`productivity_score` is 2.0, from the earliest match. -/
theorem c5_first_match_wins :
    (∀ t : PyStr, searchFrom scoreAfter kwProductivity t =
      (matchesFrom scoreAfter kwProductivity t).head?) ∧
    (extract_metrics (.str ("productivity 2 ... productivity 4".toList))).productivity_score = 2 := by
  constructor
  · exact searchFrom_eq_head scoreAfter kwProductivity
  · have h : searchFrom scoreAfter kwProductivity
        (lowerStr ("productivity 2 ... productivity 4".toList)) = some (2, none) := by
      decide
    simp only [extract_metrics, extractMetricsCore, extractMetricsStr]
    rw [h]
    simp [scoreVal]

/-- C7: when none of the four metric keywords occurs (case-insensitively)
in the input text, `_extract_metrics` returns the all-defaults record,
every field present with its default. -/
theorem c7_defaults_when_no_keywords (s : PyStr)
    (h1 : containsSub kwProductivity (lowerStr s) = false)
    (h2 : containsSub kwTaskCompletion (lowerStr s) = false)
    (h3 : containsSub kwProjectProgress (lowerStr s) = false)
    (h4 : containsSub kwCollaboration (lowerStr s) = false) :
    extract_metrics (.str s) = defaultMetrics := by
  have e1 := searchFrom_eq_none_of_not_contains scoreAfter kwProductivity (lowerStr s) h1
  have e2 := searchFrom_eq_none_of_not_contains percentAfter kwTaskCompletion (lowerStr s) h2
  have e3 := searchFrom_eq_none_of_not_contains percentAfter kwProjectProgress (lowerStr s) h3
  have e4 := searchFrom_eq_none_of_not_contains scoreAfter kwCollaboration (lowerStr s) h4
  have hm : extract_metrics (.str s) = extractMetricsStr s := rfl
  rw [hm]
  simp only [extractMetricsStr]
  rw [e1, e2, e3, e4]
  rfl

theorem c7_defaults_when_no_keywords_witness :
    containsSub kwProductivity (lowerStr ("hello world".toList)) = false ∧
    containsSub kwTaskCompletion (lowerStr ("hello world".toList)) = false ∧
    containsSub kwProjectProgress (lowerStr ("hello world".toList)) = false ∧
    containsSub kwCollaboration (lowerStr ("hello world".toList)) = false ∧
    extract_metrics (.str ("hello world".toList)) = defaultMetrics :=
  ⟨by decide, by decide, by decide, by decide,
   c7_defaults_when_no_keywords ("hello world".toList) (by decide) (by decide) (by decide) (by decide)⟩

theorem bullet_shape {l : PyStr} (hb : ("•".toList).isPrefixOf l = true) :
    ∃ rest, l = '•' :: rest := by
  cases l with
  | nil => exact Bool.noConfusion hb
  | cons c t =>
    simp [List.isPrefixOf] at hb
    exact ⟨t, by rw [hb]⟩

/-- A stripped line that starts with the bullet glyph is neither empty
nor one of the four section headers, so while the current section is
`actions` processing it appends its glyph-stripped, trimmed remainder at
the end of `immediate_actions`. -/
theorem stepLine_bullet (st : ScanState) (l : PyStr)
    (hsec : st.current_section = Sect.actions)
    (hb : ("•".toList).isPrefixOf (stripPy l) = true) :
    (stepLine st l).recs.immediate_actions =
      st.recs.immediate_actions ++ [stripPy ((stripPy l).drop 1)] := by
  obtain ⟨rest, hrest⟩ := bullet_shape hb
  have hah : isActionsHeader ('•' :: rest) = false := by
    simp [isActionsHeader, lowerStr, List.isPrefixOf]
  have hwh : isWellnessHeader ('•' :: rest) = false := by
    simp [isWellnessHeader, lowerStr, List.isPrefixOf]
  have hbp : ("•".toList).isPrefixOf ('•' :: rest) = true := by
    simp [List.isPrefixOf]
  simp only [stepLine, hrest, List.isEmpty_cons, hah, hwh, hbp, hsec]
  simp [List.drop]

/-- A stripped line in the `wellness` section that is not empty, not a
header, does not contain the work-life-balance marker but does contain
the workload marker stores `_extract_wellness_value` of the line in
`workload_assessment`, leaving the section unchanged. -/
theorem stepLine_workload (st : ScanState) (l : PyStr)
    (hsec : st.current_section = Sect.wellness)
    (hne : (stripPy l).isEmpty = false)
    (hah : isActionsHeader (stripPy l) = false)
    (hwh : isWellnessHeader (stripPy l) = false)
    (hwl : containsSub ("work-life balance".toList) (lowerStr (stripPy l)) = false)
    (hwk : containsSub ("workload".toList) (lowerStr (stripPy l)) = true) :
    (stepLine st l).recs.wellness_indicators.workload_assessment
        = extract_wellness_value (stripPy l) ∧
    (stepLine st l).current_section = Sect.wellness := by
  simp only [stepLine, hne, hah, hwh, hsec, hwl, hwk]
  simp

/-- C6: `"productivity 7"` yields the default `productivity_score` 0.0 —
the digit 7 is rejected by the `[0-4](\.\d)?` shape of the pattern, and
no clamping step maps it into range. -/
theorem c6_out_of_range_digit_rejected :
    extract_metrics (.str ("productivity 7".toList)) = defaultMetrics := by
  rfl

/-- C8: in the `actions` section every bullet line appends its
glyph-stripped, trimmed remainder at the end of `immediate_actions`, so
captured action items appear in source order; in particular the lines
`"Action Plan"`, `"• Do X"`, `"• Do Y"` yield
`immediate_actions = ["Do X", "Do Y"]` in that order. -/
theorem c8_actions_in_order :
    (∀ (st : ScanState) (l : PyStr), st.current_section = Sect.actions →
        ("•".toList).isPrefixOf (stripPy l) = true →
        (stepLine st l).recs.immediate_actions =
          st.recs.immediate_actions ++ [stripPy ((stripPy l).drop 1)]) ∧
    (extract_recommendations (.str ("Action Plan\n• Do X\n• Do Y".toList))).immediate_actions
      = ["Do X".toList, "Do Y".toList] :=
  ⟨stepLine_bullet, by decide⟩

theorem c8_actions_in_order_witness :
    (stepLine { current_section := Sect.actions, recs := defaultRecommendationSet }
        ("• Do X".toList)).recs.immediate_actions
      = defaultRecommendationSet.immediate_actions
          ++ [stripPy ((stripPy ("• Do X".toList)).drop 1)] :=
  c8_actions_in_order.1
    { current_section := Sect.actions, recs := defaultRecommendationSet }
    ("• Do X".toList) rfl (by decide)

/-- C9: in the `wellness` section, a line containing a marker phrase has
its stored value computed by `_extract_wellness_value` (remove every
`•`, `:` and `-`, trim, split on whitespace, take the last token, `N/A`
when none); consequently the lines `"Wellness"`,
`"Work-Life Balance: Good"`, `"Workload: Heavy"`, `"Engagement: High"`
yield the wellness indicators `Good` / `Heavy` / `High`. -/
theorem c9_wellness_value_extraction :
    (∀ (st : ScanState) (l : PyStr), st.current_section = Sect.wellness →
        (stripPy l).isEmpty = false →
        isActionsHeader (stripPy l) = false →
        isWellnessHeader (stripPy l) = false →
        containsSub ("work-life balance".toList) (lowerStr (stripPy l)) = false →
        containsSub ("workload".toList) (lowerStr (stripPy l)) = true →
        (stepLine st l).recs.wellness_indicators.workload_assessment
          = extract_wellness_value (stripPy l)) ∧
    (extract_recommendations
        (.str ("Wellness\nWork-Life Balance: Good\nWorkload: Heavy\nEngagement: High".toList))).wellness_indicators
      = { work_life_balance := "Good".toList
          workload_assessment := "Heavy".toList
          engagement_level := "High".toList } :=
  ⟨fun st l h1 h2 h3 h4 h5 h6 => (stepLine_workload st l h1 h2 h3 h4 h5 h6).1, by decide⟩

theorem c9_wellness_value_extraction_witness :
    (stepLine { current_section := Sect.wellness, recs := defaultRecommendationSet }
        ("Workload: Heavy".toList)).recs.wellness_indicators.workload_assessment
      = extract_wellness_value (stripPy ("Workload: Heavy".toList)) :=
  c9_wellness_value_extraction.1
    { current_section := Sect.wellness, recs := defaultRecommendationSet }
    ("Workload: Heavy".toList) rfl (by decide) (by decide) (by decide) (by decide) (by decide)

/-- C10: when several wellness-section lines contain the same marker
phrase, each match overwrites the field, so the final value comes from
the last matching line; in particular `"Wellness"`,
`"Workload: Heavy"`, `"Workload: Light"` leave
`workload_assessment = "Light"`. -/
theorem c10_wellness_last_match_wins :
    (∀ (st : ScanState) (l1 l2 : PyStr), st.current_section = Sect.wellness →
        (stripPy l1).isEmpty = false →
        isActionsHeader (stripPy l1) = false →
        isWellnessHeader (stripPy l1) = false →
        containsSub ("work-life balance".toList) (lowerStr (stripPy l1)) = false →
        containsSub ("workload".toList) (lowerStr (stripPy l1)) = true →
        (stripPy l2).isEmpty = false →
        isActionsHeader (stripPy l2) = false →
        isWellnessHeader (stripPy l2) = false →
        containsSub ("work-life balance".toList) (lowerStr (stripPy l2)) = false →
        containsSub ("workload".toList) (lowerStr (stripPy l2)) = true →
        (stepLine (stepLine st l1) l2).recs.wellness_indicators.workload_assessment
          = extract_wellness_value (stripPy l2)) ∧
    (extract_recommendations
        (.str ("Wellness\nWorkload: Heavy\nWorkload: Light".toList))).wellness_indicators.workload_assessment
      = "Light".toList := by
  constructor
  · intro st l1 l2 hsec h1a h1b h1c h1d h1e h2a h2b h2c h2d h2e
    have hs1 := stepLine_workload st l1 hsec h1a h1b h1c h1d h1e
    exact (stepLine_workload (stepLine st l1) l2 hs1.2 h2a h2b h2c h2d h2e).1
  · decide

theorem c10_wellness_last_match_wins_witness :
    (stepLine (stepLine { current_section := Sect.wellness, recs := defaultRecommendationSet }
        ("Workload: Heavy".toList)) ("Workload: Light".toList)).recs.wellness_indicators.workload_assessment
      = extract_wellness_value (stripPy ("Workload: Light".toList)) :=
  c10_wellness_last_match_wins.1
    { current_section := Sect.wellness, recs := defaultRecommendationSet }
    ("Workload: Heavy".toList) ("Workload: Light".toList) rfl
    (by decide) (by decide) (by decide) (by decide) (by decide)
    (by decide) (by decide) (by decide) (by decide) (by decide)

end WPR
